import Mathlib

/-
Shallow embedding of the subject/session name-processing and next-number
suggestion core of the data-management tool, translated from
src/datashuttle/utils/getters.py and src/datashuttle/utils/utils.py.
Python strings are modelled as lists of characters, Python exceptions as a
result type carrying an exception kind and message, and the warnings
emitted through the warnings module as an explicit list returned alongside
the value.  The local and central folder searches are I/O collaborators;
their observed results are passed in as explicit list arguments.
-/

abbrev Str := List Char

inductive ExcKind where
  | baseException
  | assertionError
  | valueError
  | neuroBlueprintError
  deriving DecidableEq

structure Err where
  kind : ExcKind
  msg : Str
  deriving DecidableEq

structure Warn where
  msg : Str
  deriving DecidableEq

inductive PyResult (α : Type) where
  | ok : α → PyResult α
  | raised : Err → PyResult α
  deriving DecidableEq

/-- Embeds Python truthiness of an `Optional[str]` value: `None` and the
empty string are falsy, any non-empty string is truthy. -/
def py_truthy_opt_str : Option Str → Bool
  | none => false
  | some s => !s.isEmpty

/-- Embeds `utils.raise_error` (src/datashuttle/utils/utils.py, lines 50-54),
which raises a plain `BaseException` carrying the message. -/
def raise_error (message : Str) : Err :=
  ⟨ExcKind.baseException, message⟩

/-- Decimal digit-string to number, as Python `int()` on an all-digit string. -/
def digitsToNat (s : Str) : Nat :=
  s.foldl (fun acc c => 10 * acc + (c.toNat - 48)) 0

def is_int_string (s : Str) : Bool :=
  !s.isEmpty && s.all Char.isDigit

/-- Modelled from the spec: `utils.sub_or_ses_value_to_int` is called from
`getters.py` but the utils function itself is not under src/.  The spec
says only "Parse all values to integers"; parsing fails on a non-numeric
value. -/
def sub_or_ses_value_to_int (value : Str) : PyResult Nat :=
  if is_int_string value then PyResult.ok (digitsToNat value)
  else PyResult.raised ⟨ExcKind.baseException, ("Cannot parse value to int.").data⟩

/-- Embeds the list comprehension
`[utils.sub_or_ses_value_to_int(value) for value in all_values_str]`:
the first parse failure propagates. -/
def values_to_ints : List Str → PyResult (List Nat)
  | [] => PyResult.ok []
  | v :: vs =>
    match sub_or_ses_value_to_int v with
    | PyResult.raised e => PyResult.raised e
    | PyResult.ok n =>
      match values_to_ints vs with
      | PyResult.raised e => PyResult.raised e
      | PyResult.ok ns => PyResult.ok (n :: ns)

/-- Modelled from the spec: `utils.integers_are_consecutive` is called from
`getters.py` but is not under src/; a list is consecutive when successive
differences are all one. -/
def integers_are_consecutive : List Nat → Bool
  | [] => true
  | [_] => true
  | a :: b :: rest => (b == a + 1) && integers_are_consecutive (b :: rest)

/-- Modelled from the spec: the per-name value extraction of
`utils.get_values_from_bids_formatted_name` (not under src/): names that
do not start with the expected level token are ignored, otherwise the
value is the run of characters after the leading key up to the next
token delimiter. -/
def extract_value (pfx : Str) (name : Str) : Option Str :=
  if (pfx ++ ("-").data).isPrefixOf name then
    some ((name.drop (pfx.length + 1)).takeWhile (fun c => !(c == '-' || c == '_')))
  else none

/-- Modelled from the spec: `utils.get_values_from_bids_formatted_name`
(not under src/), restricted to `return_as_int=False` as called from
`getters.py`: extract the level token value string from every name,
ignoring names that do not start with the expected token. -/
def get_values_from_bids_formatted_name (all_names : List Str) (pfx : Str) : List Str :=
  all_names.filterMap (extract_value pfx)

/-- Decimal representation, as Python `str()` on an int. -/
def natToStr (n : Nat) : Str :=
  Nat.toDigits 10 n

/-- Embeds Python `str.zfill`: left-pad with zeros to the requested width;
a string already at least that wide is returned unchanged. -/
def zfill (width : Nat) (s : Str) : Str :=
  List.replicate (width - s.length) '0' ++ s

/-- Python `repr` of a list of ints, as interpolated into the gap warning. -/
def pyListRepr (l : List Nat) : Str :=
  ("[").data ++ List.intercalate ((", ").data) (l.map natToStr) ++ ("]").data

/-- The message of the inconsistent digit-width error raised in
`get_max_sub_or_ses_num_and_value_length` (getters.py lines 151-155). -/
def inconsistent_digits_message (pfx : Str) : Str :=
  ("The number of value digits for the ").data ++ pfx
    ++ (" level are not consistent. Cannot suggest a ").data ++ pfx
    ++ (" number.").data

/-- The non-fatal warning emitted in `get_max_sub_or_ses_num_and_value_length`
(getters.py lines 163-167) when used numbers are not consecutive. -/
def gap_warning (nums : List Nat) : Warn :=
  ⟨("A subject number has been skipped, currently used subject numbers are: ").data
    ++ pyListRepr nums⟩

def assert_default_int_message : Str :=
  ("`default_num_value_digits` must be int`").data

/-- Python `max` over a list, raising on an empty list. -/
def list_max : List Nat → PyResult Nat
  | [] => PyResult.raised ⟨ExcKind.valueError, ("max() arg is an empty sequence").data⟩
  | x :: xs => PyResult.ok (xs.foldl Nat.max x)

/-- Python `sorted` over a list of naturals. -/
def sorted_nat (l : List Nat) : List Nat :=
  List.insertionSort (fun a b => a ≤ b) l

/-- The non-empty branch of `get_max_sub_or_ses_num_and_value_length`
(getters.py lines 140-171), as a function of the extracted value strings:
check the digit widths are consistent (Python indexes the width list at 0
only after the set-size check has guaranteed it is non-empty), parse the
values, warn when the sorted values are not consecutive, and return the
maximum together with the width. -/
def get_max_core (pfx : Str) (all_values_str : List Str) :
    PyResult ((Nat × Nat) × List Warn) :=
  let all_num_value_digits := all_values_str.map List.length
  if all_num_value_digits.dedup.length ≠ 1 then
    PyResult.raised (raise_error (inconsistent_digits_message pfx))
  else
    let num_value_digits := all_num_value_digits.headD 0
    match values_to_ints all_values_str with
    | PyResult.raised e => PyResult.raised e
    | PyResult.ok nums =>
      let all_value_nums := sorted_nat nums
      let warns :=
        if integers_are_consecutive all_value_nums then ([] : List Warn)
        else [gap_warning all_value_nums]
      match list_max all_value_nums with
      | PyResult.raised e => PyResult.raised e
      | PyResult.ok m => PyResult.ok ((m, num_value_digits), warns)

/-- Embeds `get_max_sub_or_ses_num_and_value_length` (getters.py lines
99-171).  An empty folder list asserts that the default width is an int
and returns zero with that default; otherwise the extracted values are
processed by `get_max_core`. -/
def get_max_sub_or_ses_num_and_value_length (all_folders : List Str) (pfx : Str)
    (default_num_value_digits : Option Nat) : PyResult ((Nat × Nat) × List Warn) :=
  if all_folders.isEmpty then
    match default_num_value_digits with
    | some d => PyResult.ok ((0, d), [])
    | none => PyResult.raised ⟨ExcKind.assertionError, assert_default_int_message⟩
  else
    get_max_core pfx (get_values_from_bids_formatted_name all_folders pfx)

/-- Embeds the level selection of `get_next_sub_or_ses_number` (getters.py
lines 68-73): `if sub:` — Python truthiness, not a None test. -/
def pick_level_pfx (sub : Option Str) : Str :=
  if py_truthy_opt_str sub then ("ses").data else ("sub").data

/-- Embeds `get_next_sub_or_ses_number` (getters.py lines 23-96).  The
local and central folder searches are I/O collaborators whose observed
name lists are passed in; the source takes
`list(set(local + central))`, embedded as `List.dedup` of the
concatenation (the resulting Python list order is unspecified, and the
suggestion is proved order-independent separately). -/
def get_next_sub_or_ses_number (local_names central_names : List Str)
    (sub : Option Str) (return_with_pfx : Bool)
    (default_num_value_digits : Nat) : PyResult (Str × List Warn) :=
  let pfx := pick_level_pfx sub
  let all_folders := (local_names ++ central_names).dedup
  match get_max_sub_or_ses_num_and_value_length all_folders pfx
      (some default_num_value_digits) with
  | PyResult.raised e => PyResult.raised e
  | PyResult.ok ((max_existing_num, num_value_digits), warns) =>
    let suggested_new_num := max_existing_num + 1
    let format_suggested_new_num := zfill num_value_digits (natToStr suggested_new_num)
    if return_with_pfx then
      PyResult.ok (pfx ++ ("-").data ++ format_suggested_new_num, warns)
    else
      PyResult.ok (format_suggested_new_num, warns)

/-- Maximum of a list of naturals, used to state the claims about the
suggested number (zero on the empty list, which never occurs under the
claims' hypotheses). -/
def py_max_d : List Nat → Nat
  | [] => 0
  | x :: xs => xs.foldl Nat.max x

/-- Exception kind of a result, when it is a raised exception. -/
def err_kind_of {α : Type} : PyResult α → Option ExcKind
  | PyResult.ok _ => none
  | PyResult.raised e => some e.kind

/-- Modelled from the spec: the per-name step of the Name Formatter
(`utils.process_names`, called from `DataShuttle._process_names`, is not
under src/): if the raw name lacks the canonical level token it is
prepended, treating the entire input as the numeric value. -/
def format_name (pfxStr : Str) (raw : Str) : Str :=
  if pfxStr.isPrefixOf raw then raw else pfxStr ++ raw

/-- Names already emitted are skipped, later occurrences dropped. -/
def dedup_keep_first_aux (seen : List Str) : List Str → List Str
  | [] => []
  | x :: xs =>
    if x ∈ seen then dedup_keep_first_aux seen xs
    else x :: dedup_keep_first_aux (x :: seen) xs

/-- Modelled from the spec: the Name Formatter deduplicates while
preserving first-seen order. -/
def dedup_keep_first (l : List Str) : List Str :=
  dedup_keep_first_aux [] l

/-- Modelled from the spec: the Name Formatter (`utils.process_names` is
not under src/): each raw name has the canonical level token prepended
when missing, and the result is deduplicated preserving first-seen order.
Dynamic-tag and range-tag handling apply to inputs outside the claims
considered here and are not modelled. -/
def format_names (pfxStr : Str) (raws : List Str) : List Str :=
  dedup_keep_first (raws.map (format_name pfxStr))

inductive ValidationMode where
  | err
  | warn
  deriving DecidableEq

/-- Modelled from the spec: the duplicate-entity test of the Name
Validator (not under src/): the level token values of the two names
match but the full names differ. -/
def duplicated_entity (pfx cand existing : Str) : Bool :=
  decide ((extract_value pfx cand).isSome = true
    ∧ extract_value pfx cand = extract_value pfx existing
    ∧ cand ≠ existing)

/-- Modelled from the spec: the duplicate-entity failure message of the
Name Validator, as recorded by the repository's own logging test:
"A sub already exists with the same sub id as X. The existing folder is Y". -/
def duplicate_message (pfx cand existing : Str) : Str :=
  ("A ").data ++ pfx ++ (" already exists with the same ").data ++ pfx
    ++ (" id as ").data ++ cand ++ (". The existing folder is ").data ++ existing

def find_duplicate (pfx cand : Str) (existing : List Str) : Option Str :=
  existing.find? (duplicated_entity pfx cand)

/-- Modelled from the spec: `validate_names` of the Name Validator (the
validation core called through the TUI interface in
`CreateFoldersTab.run_local_validation` is not under src/).  Each
candidate is checked against the existing NameSet; in error mode the
first duplicate-entity violation raises `NeuroBlueprintError`, in warn
mode violations are collected as warnings.  The check is pure: the
existing NameSet is only read. -/
def validate_names (cands existing : List Str) (pfx : Str)
    (mode : ValidationMode) : PyResult (List Warn) :=
  match cands with
  | [] => PyResult.ok []
  | c :: cs =>
    match find_duplicate pfx c existing with
    | some ex =>
      match mode with
      | ValidationMode.err =>
        PyResult.raised ⟨ExcKind.neuroBlueprintError, duplicate_message pfx c ex⟩
      | ValidationMode.warn =>
        match validate_names cs existing pfx ValidationMode.warn with
        | PyResult.ok ws => PyResult.ok (⟨duplicate_message pfx c ex⟩ :: ws)
        | PyResult.raised e => PyResult.raised e
    | none => validate_names cs existing pfx mode

/-- The extracted subject-level value strings of a list of folder names. -/
def sub_values (names : List Str) : List Str :=
  get_values_from_bids_formatted_name names (("sub").data)

/-- The extracted subject-level values parsed as numbers. -/
def sub_nums (names : List Str) : List Nat :=
  (sub_values names).map digitsToNat

/-- The warnings the suggester emits: a gap warning listing the sorted
used numbers exactly when they are not consecutive. -/
def gap_warns (nums : List Nat) : List Warn :=
  if integers_are_consecutive (sorted_nat nums) then []
  else [gap_warning (sorted_nat nums)]

lemma values_to_ints_ok (l : List Str) (h : ∀ v ∈ l, is_int_string v = true) :
    values_to_ints l = PyResult.ok (l.map digitsToNat) := by
  induction l with
  | nil => rfl
  | cons v vs ih =>
    have hv := h v (List.mem_cons_self v vs)
    have hvs := ih (fun x hx => h x (List.mem_cons_of_mem v hx))
    simp [values_to_ints, sub_or_ses_value_to_int, hv, hvs]

lemma values_to_ints_raised (l : List Str) (h : ∃ v ∈ l, is_int_string v = false) :
    values_to_ints l
      = PyResult.raised ⟨ExcKind.baseException, ("Cannot parse value to int.").data⟩ := by
  induction l with
  | nil => simp at h
  | cons v vs ih =>
    by_cases hv : is_int_string v = true
    · obtain ⟨x, hx, hxf⟩ := h
      rcases List.mem_cons.mp hx with h' | hx'
      · subst h'; simp [hv] at hxf
      · have hrec := ih ⟨x, hx', hxf⟩
        simp [values_to_ints, sub_or_ses_value_to_int, hv, hrec]
    · simp [values_to_ints, sub_or_ses_value_to_int, hv]

lemma dedup_eq_single {l : List Nat} {k : Nat} (hne : l ≠ []) (hall : ∀ x ∈ l, x = k) :
    l.dedup = [k] := by
  induction l with
  | nil => cases hne rfl
  | cons a t ih =>
    have ha : a = k := hall a (List.mem_cons_self a t)
    cases t with
    | nil =>
      rw [List.dedup_cons_of_not_mem (List.not_mem_nil a), List.dedup_nil, ha]
    | cons b t' =>
      have hb : b = k := hall b (List.mem_cons_of_mem a (List.mem_cons_self b t'))
      have hmem : a ∈ b :: t' := by
        rw [ha, ← hb]; exact List.mem_cons_self b t'
      rw [List.dedup_cons_of_mem hmem]
      exact ih (by simp) (fun x hx => hall x (List.mem_cons_of_mem a hx))

lemma all_eq_of_dedup_length_one {l : List Nat} (h : l.dedup.length = 1) :
    ∀ x ∈ l, ∀ y ∈ l, x = y := by
  obtain ⟨k, hk⟩ : ∃ k, l.dedup = [k] := by
    cases hd : l.dedup with
    | nil => rw [hd] at h; simp at h
    | cons a t =>
      rw [hd] at h
      simp only [List.length_cons, Nat.add_left_eq_self, List.length_eq_zero] at h
      exact ⟨a, by rw [h]⟩
  intro x hx y hy
  have hx' : x ∈ l.dedup := List.mem_dedup.mpr hx
  have hy' : y ∈ l.dedup := List.mem_dedup.mpr hy
  rw [hk] at hx' hy'
  simp only [List.mem_singleton] at hx' hy'
  rw [hx', hy']

lemma list_max_ok {l : List Nat} (h : l ≠ []) : list_max l = PyResult.ok (py_max_d l) := by
  cases l with
  | nil => cases h rfl
  | cons x xs => rfl

lemma py_max_d_eq_foldl (l : List Nat) : py_max_d l = l.foldl Nat.max 0 := by
  cases l with
  | nil => rfl
  | cons x xs => simp [py_max_d, List.foldl_cons, Nat.zero_max]

lemma py_max_d_perm {l₁ l₂ : List Nat} (h : l₁.Perm l₂) : py_max_d l₁ = py_max_d l₂ := by
  rw [py_max_d_eq_foldl, py_max_d_eq_foldl]
  exact h.foldl_eq 0

lemma headD_eq_of_all_eq {l : List Nat} {k : Nat} (hne : l ≠ []) (hall : ∀ x ∈ l, x = k) :
    l.headD 0 = k := by
  cases l with
  | nil => cases hne rfl
  | cons a t => exact hall a (List.mem_cons_self a t)

lemma sorted_nat_ne_nil {l : List Nat} (h : l ≠ []) : sorted_nat l ≠ [] := by
  intro hsn
  apply h
  have hp : l.Perm (sorted_nat l) := (List.perm_insertionSort _ l).symm
  rw [hsn] at hp
  exact hp.eq_nil

lemma get_max_core_ok (pfx : Str) (vals : List Str) (w : Nat)
    (hne : vals ≠ []) (hw : ∀ v ∈ vals, v.length = w)
    (hp : ∀ v ∈ vals, is_int_string v = true) :
    get_max_core pfx vals =
      PyResult.ok ((py_max_d (vals.map digitsToNat), w),
        gap_warns (vals.map digitsToNat)) := by
  have hlen_ne : vals.map List.length ≠ [] := by simpa using hne
  have hall : ∀ x ∈ vals.map List.length, x = w := by
    intro x hx
    obtain ⟨v, hv, rfl⟩ := List.mem_map.mp hx
    exact hw v hv
  have hded : (vals.map List.length).dedup = [w] := dedup_eq_single hlen_ne hall
  have hcond : ¬((vals.map List.length).dedup.length ≠ 1) := by rw [hded]; simp
  have hints : values_to_ints vals = PyResult.ok (vals.map digitsToNat) :=
    values_to_ints_ok vals hp
  have hnums_ne : vals.map digitsToNat ≠ [] := by simpa using hne
  have hsort_ne : sorted_nat (vals.map digitsToNat) ≠ [] := sorted_nat_ne_nil hnums_ne
  have hmax : list_max (sorted_nat (vals.map digitsToNat))
      = PyResult.ok (py_max_d (vals.map digitsToNat)) := by
    rw [list_max_ok hsort_ne]
    exact congrArg PyResult.ok (py_max_d_perm (List.perm_insertionSort _ _))
  have hhead : (vals.map List.length).headD 0 = w := headD_eq_of_all_eq hlen_ne hall
  simp only [get_max_core, if_neg hcond, hints, hhead, hmax, gap_warns]

lemma get_max_of_ne_nil {all_folders : List Str} {pfx : Str} {dflt : Option Nat}
    (h : all_folders ≠ []) :
    get_max_sub_or_ses_num_and_value_length all_folders pfx dflt
      = get_max_core pfx (get_values_from_bids_formatted_name all_folders pfx) := by
  have : all_folders.isEmpty = false := by
    cases all_folders with
    | nil => cases h rfl
    | cons a t => rfl
  simp only [get_max_sub_or_ses_num_and_value_length, this, Bool.false_eq_true, if_false]

lemma get_max_core_raised_of_mixed (pfx : Str) (vals : List Str) (v₁ v₂ : Str)
    (h₁ : v₁ ∈ vals) (h₂ : v₂ ∈ vals) (hne : v₁.length ≠ v₂.length) :
    get_max_core pfx vals
      = PyResult.raised (raise_error (inconsistent_digits_message pfx)) := by
  have hcond : (vals.map List.length).dedup.length ≠ 1 := by
    intro hone
    exact hne (all_eq_of_dedup_length_one hone _ (List.mem_map_of_mem _ h₁)
      _ (List.mem_map_of_mem _ h₂))
  simp only [get_max_core, if_pos hcond]

lemma get_next_sub_eq (names : List Str) (rwp : Bool) (d : Nat) (hnd : names.Nodup) :
    get_next_sub_or_ses_number names [] none rwp d
      = match get_max_sub_or_ses_num_and_value_length names (("sub").data) (some d) with
        | PyResult.raised e => PyResult.raised e
        | PyResult.ok ((m, nvd), warns) =>
          if rwp then
            PyResult.ok ((("sub").data) ++ ("-").data ++ zfill nvd (natToStr (m + 1)), warns)
          else PyResult.ok (zfill nvd (natToStr (m + 1)), warns) := by
  have hfold : (names ++ ([] : List Str)).dedup = names := by
    rw [List.append_nil]; exact hnd.dedup
  simp only [get_next_sub_or_ses_number, pick_level_pfx, py_truthy_opt_str, hfold]
  rfl

lemma get_max_core_raised_width (pfx : Str) (vals : List Str)
    (h : (vals.map List.length).dedup.length ≠ 1) :
    get_max_core pfx vals
      = PyResult.raised (raise_error (inconsistent_digits_message pfx)) := by
  simp only [get_max_core, if_pos h]

lemma get_max_core_raised_parse (pfx : Str) (vals : List Str)
    (hone : (vals.map List.length).dedup.length = 1)
    (hbad : ∃ v ∈ vals, is_int_string v = false) :
    get_max_core pfx vals
      = PyResult.raised ⟨ExcKind.baseException, ("Cannot parse value to int.").data⟩ := by
  have hc : ¬((vals.map List.length).dedup.length ≠ 1) := by rw [hone]; simp
  simp only [get_max_core, if_neg hc, values_to_ints_raised vals hbad]

lemma get_max_core_perm (pfx : Str) {v₁ v₂ : List Str} (h : v₁.Perm v₂) :
    get_max_core pfx v₁ = get_max_core pfx v₂ := by
  have hlp : (v₁.map List.length).Perm (v₂.map List.length) := h.map _
  have hdlen : (v₁.map List.length).dedup.length = (v₂.map List.length).dedup.length :=
    hlp.dedup.length_eq
  by_cases hone : (v₁.map List.length).dedup.length = 1
  · have hone₂ : (v₂.map List.length).dedup.length = 1 := by rw [← hdlen]; exact hone
    have hne₁ : v₁.map List.length ≠ [] := by
      intro hnil; rw [hnil] at hone; simp at hone
    have hne₂ : v₂.map List.length ≠ [] := by
      intro hnil; rw [hnil] at hone₂; simp at hone₂
    cases hv₁ : v₁.map List.length with
    | nil => exact absurd hv₁ hne₁
    | cons k t =>
      have hallk₁ : ∀ x ∈ v₁.map List.length, x = k := by
        intro x hx
        exact all_eq_of_dedup_length_one hone x hx k (by rw [hv₁]; exact List.mem_cons_self k t)
      have hallk₂ : ∀ x ∈ v₂.map List.length, x = k := fun x hx =>
        hallk₁ x (hlp.symm.subset hx)
      have hvne₁ : v₁ ≠ [] := by
        intro hh; apply hne₁; rw [hh]; rfl
      have hvne₂ : v₂ ≠ [] := by
        intro hh; apply hne₂; rw [hh]; rfl
      have hw₁ : ∀ v ∈ v₁, v.length = k := fun v hv =>
        hallk₁ v.length (List.mem_map_of_mem _ hv)
      have hw₂ : ∀ v ∈ v₂, v.length = k := fun v hv =>
        hallk₂ v.length (List.mem_map_of_mem _ hv)
      by_cases hall : ∀ v ∈ v₁, is_int_string v = true
      · have hall₂ : ∀ v ∈ v₂, is_int_string v = true := fun v hv =>
          hall v (h.symm.subset hv)
        have hnp : (v₁.map digitsToNat).Perm (v₂.map digitsToNat) := h.map _
        have hsort : sorted_nat (v₁.map digitsToNat) = sorted_nat (v₂.map digitsToNat) :=
          List.eq_of_perm_of_sorted
            (((List.perm_insertionSort _ _).trans hnp).trans
              (List.perm_insertionSort _ _).symm)
            (List.sorted_insertionSort _ _) (List.sorted_insertionSort _ _)
        rw [get_max_core_ok pfx v₁ k hvne₁ hw₁ hall,
          get_max_core_ok pfx v₂ k hvne₂ hw₂ hall₂,
          py_max_d_perm hnp]
        have hgw : gap_warns (v₁.map digitsToNat) = gap_warns (v₂.map digitsToNat) := by
          simp only [gap_warns, hsort]
        rw [hgw]
      · have hbad : ∃ v ∈ v₁, is_int_string v = false := by
          push_neg at hall
          obtain ⟨v, hv, hvf⟩ := hall
          exact ⟨v, hv, by simpa using hvf⟩
        have hbad₂ : ∃ v ∈ v₂, is_int_string v = false := by
          obtain ⟨v, hv, hvf⟩ := hbad
          exact ⟨v, h.subset hv, hvf⟩
        rw [get_max_core_raised_parse pfx v₁ hone hbad,
          get_max_core_raised_parse pfx v₂ hone₂ hbad₂]
  · have hone₂ : (v₂.map List.length).dedup.length ≠ 1 := by rw [← hdlen]; exact hone
    rw [get_max_core_raised_width pfx v₁ hone, get_max_core_raised_width pfx v₂ hone₂]

lemma get_max_perm {a₁ a₂ : List Str} (pfx : Str) (dflt : Option Nat) (h : a₁.Perm a₂) :
    get_max_sub_or_ses_num_and_value_length a₁ pfx dflt
      = get_max_sub_or_ses_num_and_value_length a₂ pfx dflt := by
  by_cases hnil : a₁ = []
  · subst hnil
    rw [h.symm.eq_nil]
  · have hnil₂ : a₂ ≠ [] := by
      intro hh; apply hnil; rw [hh] at h; exact h.eq_nil
    rw [get_max_of_ne_nil hnil, get_max_of_ne_nil hnil₂]
    exact get_max_core_perm pfx (h.filterMap _)

lemma sub_values_nil : sub_values [] = [] := rfl

lemma get_next_sub_ok (names : List Str) (w d : Nat) (rwp : Bool)
    (hnd : names.Nodup)
    (hne : sub_values names ≠ [])
    (hw : ∀ v ∈ sub_values names, v.length = w)
    (hp : ∀ v ∈ sub_values names, is_int_string v = true) :
    get_next_sub_or_ses_number names [] none rwp d =
      PyResult.ok
        ((if rwp then ("sub-").data ++ zfill w (natToStr (py_max_d (sub_nums names) + 1))
          else zfill w (natToStr (py_max_d (sub_nums names) + 1))),
         gap_warns (sub_nums names)) := by
  have hnames_ne : names ≠ [] := by
    intro hh; apply hne; rw [hh]; rfl
  rw [get_next_sub_eq names rwp d hnd, get_max_of_ne_nil hnames_ne,
    get_max_core_ok (("sub").data)
      (get_values_from_bids_formatted_name names (("sub").data)) w hne hw hp]
  cases rwp with
  | true => rfl
  | false => rfl

lemma zfill_length_of_le {s : Str} {w : Nat} (h : s.length ≤ w) :
    (zfill w s).length = w := by
  simp [zfill, Nat.sub_add_cancel h]

lemma zfill_eq_self_of_le {s : Str} {w : Nat} (h : w ≤ s.length) : zfill w s = s := by
  simp [zfill, Nat.sub_eq_zero_of_le h]

lemma get_next_sub_eq_dedup (names : List Str) (rwp : Bool) (d : Nat) :
    get_next_sub_or_ses_number names [] none rwp d
      = match get_max_sub_or_ses_num_and_value_length names.dedup (("sub").data) (some d) with
        | PyResult.raised e => PyResult.raised e
        | PyResult.ok ((m, nvd), warns) =>
          if rwp then
            PyResult.ok ((("sub").data) ++ ("-").data ++ zfill nvd (natToStr (m + 1)), warns)
          else PyResult.ok (zfill nvd (natToStr (m + 1)), warns) := by
  have hfold : (names ++ ([] : List Str)).dedup = names.dedup := by
    rw [List.append_nil]
  simp only [get_next_sub_or_ses_number, pick_level_pfx, py_truthy_opt_str, hfold]
  rfl

/-- C1: for a non-empty existing NameSet whose extracted subject values
all parse as integers and share one digit width `w`,
`get_next_sub_or_ses_number` returns the maximum value plus one,
zero-padded to `w` and prefixed with the level token, and emits the
non-fatal gap warning (listing the sorted used numbers) exactly when the
used numbers are not consecutive — the call does not fail. -/
theorem C1_next_number_suggestion (names : List Str) (w d : Nat)
    (hnd : names.Nodup)
    (hne : sub_values names ≠ [])
    (hw : ∀ v ∈ sub_values names, v.length = w)
    (hp : ∀ v ∈ sub_values names, is_int_string v = true) :
    get_next_sub_or_ses_number names [] none true d =
      PyResult.ok (("sub-").data ++ zfill w (natToStr (py_max_d (sub_nums names) + 1)),
        gap_warns (sub_nums names))
    ∧ (integers_are_consecutive (sorted_nat (sub_nums names)) = false →
        gap_warns (sub_nums names) = [gap_warning (sorted_nat (sub_nums names))]) := by
  constructor
  · exact get_next_sub_ok names w d true hnd hne hw hp
  · intro hcons
    simp [gap_warns, hcons]

/-- Witness for C1: for existing names sub-001, sub-002, sub-004 the
suggestion is sub-005 together with the gap warning listing 1, 2, 4. -/
theorem C1_witness :
    get_next_sub_or_ses_number
        [("sub-001").data, ("sub-002").data, ("sub-004").data] [] none true 3
      = PyResult.ok (("sub-005").data, [gap_warning [1, 2, 4]]) :=
  ((C1_next_number_suggestion
      [("sub-001").data, ("sub-002").data, ("sub-004").data] 3 3
      (by decide) (by decide) (by decide) (by decide)).1).trans (by decide)

/-- C4: under a consistent digit width `w` the suggested value is exactly
`zfill w` of the incremented maximum: when the incremented number needs at
most `w` digits the result has exactly `w` digits, and when it needs more
digits than `w` the decimal string is returned unchanged, with no width
growth or truncation. -/
theorem C4_exact_width_padding (names : List Str) (w d : Nat)
    (hnd : names.Nodup)
    (hne : sub_values names ≠ [])
    (hw : ∀ v ∈ sub_values names, v.length = w)
    (hp : ∀ v ∈ sub_values names, is_int_string v = true) :
    get_next_sub_or_ses_number names [] none true d =
      PyResult.ok (("sub-").data ++ zfill w (natToStr (py_max_d (sub_nums names) + 1)),
        gap_warns (sub_nums names))
    ∧ ((natToStr (py_max_d (sub_nums names) + 1)).length ≤ w →
        (zfill w (natToStr (py_max_d (sub_nums names) + 1))).length = w)
    ∧ (w ≤ (natToStr (py_max_d (sub_nums names) + 1)).length →
        zfill w (natToStr (py_max_d (sub_nums names) + 1))
          = natToStr (py_max_d (sub_nums names) + 1)) := by
  refine ⟨get_next_sub_ok names w d true hnd hne hw hp, ?_, ?_⟩
  · exact fun h => zfill_length_of_le h
  · exact fun h => zfill_eq_self_of_le h

/-- Witness for C4: with existing name sub-999 and width 3 the suggestion
overflows the width and is returned as sub-1000, uncorrected. -/
theorem C4_witness :
    get_next_sub_or_ses_number [("sub-999").data] [] none true 3
      = PyResult.ok (("sub-1000").data, []) :=
  ((C4_exact_width_padding [("sub-999").data] 3 3
      (by decide) (by decide) (by decide) (by decide)).1).trans (by decide)

/-- C5: the suggestion is a function of the set union of the local and
central folder-name lists only — two pairs of lists with the same
combined membership produce identical results. -/
theorem C5_union_invariance (l₁ c₁ l₂ c₂ : List Str) (sub : Option Str)
    (rwp : Bool) (d : Nat)
    (h : ∀ x, x ∈ l₁ ++ c₁ ↔ x ∈ l₂ ++ c₂) :
    get_next_sub_or_ses_number l₁ c₁ sub rwp d
      = get_next_sub_or_ses_number l₂ c₂ sub rwp d := by
  have hperm : ((l₁ ++ c₁).dedup).Perm ((l₂ ++ c₂).dedup) :=
    (List.perm_ext_iff_of_nodup (List.nodup_dedup _) (List.nodup_dedup _)).mpr
      (fun a => by rw [List.mem_dedup, List.mem_dedup]; exact h a)
  simp only [get_next_sub_or_ses_number]
  rw [get_max_perm _ _ hperm]

/-- Witness for C5: permuting, moving a name across the two lists and
duplicating a name leaves the suggestion unchanged. -/
theorem C5_witness :
    get_next_sub_or_ses_number [("sub-001").data, ("sub-002").data] [] none true 3
      = get_next_sub_or_ses_number [("sub-002").data]
          [("sub-001").data, ("sub-001").data] none true 3 :=
  C5_union_invariance [("sub-001").data, ("sub-002").data] []
    [("sub-002").data] [("sub-001").data, ("sub-001").data] none true 3
    (by intro x; simp only [List.mem_append, List.mem_cons, List.not_mem_nil,
      List.mem_singleton, or_false, false_or]; tauto)

/-- C9: the level is selected by Python truthiness of the `sub` argument,
not by a None test — both `None` and the empty string select the subject
level, and only a non-empty subject string selects the session level. -/
theorem C9_truthiness_level_selection (s : Str) (hs : s ≠ []) :
    pick_level_pfx none = ("sub").data
    ∧ pick_level_pfx (some []) = ("sub").data
    ∧ pick_level_pfx (some s) = ("ses").data
    ∧ ∀ (l c : List Str) (rwp : Bool) (d : Nat),
        get_next_sub_or_ses_number l c none rwp d
          = get_next_sub_or_ses_number l c (some []) rwp d := by
  refine ⟨rfl, rfl, ?_, fun l c rwp d => rfl⟩
  cases s with
  | nil => cases hs rfl
  | cons a t => rfl

/-- Witness for C9: the one-character subject string selects the session
level. -/
theorem C9_witness :
    pick_level_pfx (some (("a").data)) = ("ses").data :=
  (C9_truthiness_level_selection (("a").data) (by decide)).2.2.1

/-- C10: on an empty folder list the function requires an integer default
width — with one it returns zero and that default, and with the declared
default `None` it fails with an AssertionError instead of guessing a
width. -/
theorem C10_empty_list_assertion (pfx : Str) (d : Nat) :
    get_max_sub_or_ses_num_and_value_length [] pfx (some d)
        = PyResult.ok ((0, d), [])
    ∧ get_max_sub_or_ses_num_and_value_length [] pfx none
        = PyResult.raised ⟨ExcKind.assertionError, assert_default_int_message⟩ :=
  ⟨rfl, rfl⟩

/-- Counterexample for C2: on mixed digit widths the suggestion fails,
but the exception raised through `utils.raise_error` is a plain
BaseException, not NeuroBlueprintError as the claim states. -/
theorem C2_counterexample :
    err_kind_of (get_next_sub_or_ses_number [("sub-01").data, ("sub-002").data] [] none true 3)
        = some ExcKind.baseException
    ∧ ExcKind.baseException ≠ ExcKind.neuroBlueprintError := by
  decide

/-- C2 (amended): for any existing NameSet whose extracted subject values
contain two of different string lengths, the suggestion fails by raising
an error — a plain BaseException via `utils.raise_error` — whose message
cites the inconsistent number of value digits, and no suggestion is
returned. -/
theorem C2_amended_error (names : List Str) (rwp : Bool) (d : Nat) (v₁ v₂ : Str)
    (hnd : names.Nodup)
    (h₁ : v₁ ∈ sub_values names) (h₂ : v₂ ∈ sub_values names)
    (hmix : v₁.length ≠ v₂.length) :
    get_next_sub_or_ses_number names [] none rwp d
        = PyResult.raised (raise_error (inconsistent_digits_message (("sub").data)))
    ∧ (raise_error (inconsistent_digits_message (("sub").data))).kind
        = ExcKind.baseException
    ∧ (("number of value digits").data) <:+:
        ((raise_error (inconsistent_digits_message (("sub").data))).msg) := by
  have hnames_ne : names ≠ [] := by
    intro hh
    rw [hh] at h₁
    cases h₁
  refine ⟨?_, rfl, by decide⟩
  rw [get_next_sub_eq names rwp d hnd, get_max_of_ne_nil hnames_ne,
    get_max_core_raised_of_mixed (("sub").data)
      (get_values_from_bids_formatted_name names (("sub").data)) v₁ v₂ h₁ h₂ hmix]

/-- Witness for C2 (amended): the names sub-01 and sub-002 raise the
inconsistent digit-width error. -/
theorem C2_amended_witness :
    get_next_sub_or_ses_number [("sub-01").data, ("sub-002").data] [] none true 3
        = PyResult.raised (raise_error (inconsistent_digits_message (("sub").data))) :=
  (C2_amended_error [("sub-01").data, ("sub-002").data] true 3
    (("01").data) (("002").data) (by decide) (by decide) (by decide) (by decide)).1

/-- Counterexample for C3: for the NameSet containing only the
unprefixed name rawdata, the extracted value set is empty, yet the
suggestion is not the default sub-001 — the call fails with the
inconsistent digit-width error, because the code checks emptiness of the
folder list before extraction. -/
theorem C3_counterexample :
    get_values_from_bids_formatted_name [("rawdata").data] (("sub").data) = []
    ∧ get_next_sub_or_ses_number [("rawdata").data] [] none true 3
        = PyResult.raised (raise_error (inconsistent_digits_message (("sub").data))) := by
  decide

/-- C3 (amended): when the existing NameSet itself is empty and the
default digit width is 3, the suggestion is the number 1 formatted with
the default width — sub-001 with the level token, 001 without. -/
theorem C3_amended_empty_default :
    get_next_sub_or_ses_number [] [] none true 3
        = PyResult.ok (("sub-001").data, [])
    ∧ get_next_sub_or_ses_number [] [] none false 3
        = PyResult.ok (("001").data, []) := by
  decide

/-- Counterexample for C6: adding the non-prefixed name mouse-01 to the
empty NameSet changes the result — the empty set suggests sub-001 while
the singleton set of one ignored name raises an error. -/
theorem C6_counterexample :
    extract_value (("sub").data) (("mouse-01").data) = none
    ∧ get_next_sub_or_ses_number [("mouse-01").data] [] none true 3
        ≠ get_next_sub_or_ses_number [] [] none true 3 := by
  decide

/-- C6 (amended): provided at least one name carrying the expected level
token is present, adding a name that does not start with the expected
token changes neither the inferred digit width nor the suggested number —
the whole result is unchanged. -/
theorem C6_amended_ignored_names (names : List Str) (nm : Str) (rwp : Bool) (d : Nat)
    (h₁ : extract_value (("sub").data) nm = none)
    (h₂ : get_values_from_bids_formatted_name names.dedup (("sub").data) ≠ []) :
    get_next_sub_or_ses_number (nm :: names) [] none rwp d
      = get_next_sub_or_ses_number names [] none rwp d := by
  rw [get_next_sub_eq_dedup (nm :: names) rwp d, get_next_sub_eq_dedup names rwp d]
  by_cases hmem : nm ∈ names
  · rw [List.dedup_cons_of_mem hmem]
  · rw [List.dedup_cons_of_not_mem hmem]
    have hne : names.dedup ≠ [] := by
      intro hh; apply h₂; rw [hh]; rfl
    have hne' : (nm :: names.dedup) ≠ ([] : List Str) := List.cons_ne_nil nm _
    rw [get_max_of_ne_nil hne', get_max_of_ne_nil hne]
    have hvals : get_values_from_bids_formatted_name (nm :: names.dedup) (("sub").data)
        = get_values_from_bids_formatted_name names.dedup (("sub").data) := by
      simp [get_values_from_bids_formatted_name, List.filterMap_cons, h₁]
    rw [hvals]

/-- Witness for C6 (amended): adding mouse-01 next to sub-001 leaves the
suggestion unchanged. -/
theorem C6_witness :
    get_next_sub_or_ses_number [("mouse-01").data, ("sub-001").data] [] none true 3
      = get_next_sub_or_ses_number [("sub-001").data] [] none true 3 :=
  C6_amended_ignored_names [("sub-001").data] (("mouse-01").data) true 3
    (by decide) (by decide)

lemma format_name_starts (pfxStr x : Str) :
    pfxStr.isPrefixOf (format_name pfxStr x) = true := by
  unfold format_name
  by_cases h : pfxStr.isPrefixOf x = true
  · rw [if_pos h]; exact h
  · rw [if_neg h]
    exact List.isPrefixOf_iff_prefix.mpr (List.prefix_append pfxStr x)

lemma format_name_of_starts {pfxStr x : Str} (h : pfxStr.isPrefixOf x = true) :
    format_name pfxStr x = x := by
  unfold format_name
  rw [if_pos h]

lemma format_name_idem (pfxStr x : Str) :
    format_name pfxStr (format_name pfxStr x) = format_name pfxStr x :=
  format_name_of_starts (format_name_starts pfxStr x)

lemma dedup_keep_first_aux_mem {y : Str} :
    ∀ {seen l : List Str}, y ∈ dedup_keep_first_aux seen l → y ∈ l := by
  intro seen l
  induction l generalizing seen with
  | nil => intro h; cases h
  | cons x xs ih =>
    intro h
    by_cases hx : x ∈ seen
    · rw [dedup_keep_first_aux, if_pos hx] at h
      exact List.mem_cons_of_mem x (ih h)
    · rw [dedup_keep_first_aux, if_neg hx] at h
      rcases List.mem_cons.mp h with h' | h'
      · rw [h']; exact List.mem_cons_self x xs
      · exact List.mem_cons_of_mem x (ih h')

lemma dedup_keep_first_aux_not_seen {y : Str} :
    ∀ {seen l : List Str}, y ∈ dedup_keep_first_aux seen l → y ∉ seen := by
  intro seen l
  induction l generalizing seen with
  | nil => intro h; cases h
  | cons x xs ih =>
    intro h
    by_cases hx : x ∈ seen
    · rw [dedup_keep_first_aux, if_pos hx] at h
      exact ih h
    · rw [dedup_keep_first_aux, if_neg hx] at h
      rcases List.mem_cons.mp h with h' | h'
      · rw [h']; exact hx
      · intro hy
        exact ih h' (List.mem_cons_of_mem x hy)

lemma dedup_keep_first_aux_eq_self :
    ∀ {seen l : List Str}, l.Nodup → (∀ y ∈ l, y ∉ seen) →
      dedup_keep_first_aux seen l = l := by
  intro seen l
  induction l generalizing seen with
  | nil => intro _ _; rfl
  | cons x xs ih =>
    intro hnd hns
    have hx : x ∉ seen := hns x (List.mem_cons_self x xs)
    rw [dedup_keep_first_aux, if_neg hx]
    have hxs : dedup_keep_first_aux (x :: seen) xs = xs := by
      apply ih (List.Nodup.of_cons hnd)
      intro y hy
      intro hmem
      rcases List.mem_cons.mp hmem with h' | h'
      · exact (List.nodup_cons.mp hnd).1 (h' ▸ hy)
      · exact hns y (List.mem_cons_of_mem x hy) h'
    rw [hxs]

lemma dedup_keep_first_aux_nodup :
    ∀ {seen l : List Str}, (dedup_keep_first_aux seen l).Nodup := by
  intro seen l
  induction l generalizing seen with
  | nil => exact List.nodup_nil
  | cons x xs ih =>
    by_cases hx : x ∈ seen
    · rw [dedup_keep_first_aux, if_pos hx]
      exact ih
    · rw [dedup_keep_first_aux, if_neg hx]
      refine List.nodup_cons.mpr ⟨?_, ih⟩
      intro hmem
      exact dedup_keep_first_aux_not_seen hmem (List.mem_cons_self x seen)

lemma dedup_keep_first_idem (l : List Str) :
    dedup_keep_first (dedup_keep_first l) = dedup_keep_first l := by
  unfold dedup_keep_first
  exact dedup_keep_first_aux_eq_self dedup_keep_first_aux_nodup
    (fun y _ hy => List.not_mem_nil y hy)

lemma map_format_dedup (pfxStr : Str) (l : List Str) :
    (dedup_keep_first (l.map (format_name pfxStr))).map (format_name pfxStr)
      = dedup_keep_first (l.map (format_name pfxStr)) := by
  have hid : ∀ y ∈ dedup_keep_first (l.map (format_name pfxStr)),
      format_name pfxStr y = y := by
    intro y hy
    have hyl : y ∈ l.map (format_name pfxStr) := dedup_keep_first_aux_mem hy
    obtain ⟨x, _, rfl⟩ := List.mem_map.mp hyl
    exact format_name_idem pfxStr x
  calc (dedup_keep_first (l.map (format_name pfxStr))).map (format_name pfxStr)
      = (dedup_keep_first (l.map (format_name pfxStr))).map id :=
        List.map_congr_left hid
    _ = dedup_keep_first (l.map (format_name pfxStr)) := List.map_id _

/-- C7: formatting is idempotent — applying `format_names` to its own
output returns it unchanged — and a raw input lacking the canonical level
token has the token prepended, the entire input treated as the value, so
formatting then re-formatting round-trips. -/
theorem C7_format_round_trip (pfxStr raw : Str) (raws : List Str)
    (h : pfxStr.isPrefixOf raw = false) :
    format_names pfxStr (format_names pfxStr raws) = format_names pfxStr raws
    ∧ format_names pfxStr [raw] = [pfxStr ++ raw] := by
  constructor
  · unfold format_names
    rw [map_format_dedup pfxStr raws]
    exact dedup_keep_first_idem _
  · simp [format_names, dedup_keep_first, dedup_keep_first_aux, format_name, h]

/-- Witness for C7: the raw value 001 is formatted to sub-001. -/
theorem C7_witness :
    format_names (("sub-").data) [("001").data] = [("sub-001").data] :=
  ((C7_format_round_trip (("sub-").data) (("001").data) [("001").data]
    (by decide)).2).trans (by decide)

lemma duplicate_message_has_cand (pfx cand ex : Str) :
    cand <:+: duplicate_message pfx cand ex := by
  refine ⟨("A ").data ++ pfx ++ (" already exists with the same ").data ++ pfx
    ++ (" id as ").data, (". The existing folder is ").data ++ ex, ?_⟩
  simp [duplicate_message, List.append_assoc]

lemma duplicate_message_has_existing (pfx cand ex : Str) :
    ex <:+: duplicate_message pfx cand ex := by
  refine ⟨("A ").data ++ pfx ++ (" already exists with the same ").data ++ pfx
    ++ (" id as ").data ++ cand ++ (". The existing folder is ").data, [], ?_⟩
  simp [duplicate_message, List.append_assoc]

/-- C8: for any existing NameSet containing sub-001, validating the
candidate sub-001_id-a at subject level in error mode raises
`NeuroBlueprintError`, and the message mentions both the candidate and
the existing conflicting name found; the check is a pure function of the
existing NameSet, which it only reads. -/
theorem C8_duplicate_entity_error (existing : List Str)
    (h : ("sub-001").data ∈ existing) :
    ∃ ex, ex ∈ existing
      ∧ duplicated_entity (("sub").data) (("sub-001_id-a").data) ex = true
      ∧ validate_names [("sub-001_id-a").data] existing (("sub").data)
            ValidationMode.err
          = PyResult.raised ⟨ExcKind.neuroBlueprintError,
              duplicate_message (("sub").data) (("sub-001_id-a").data) ex⟩
      ∧ (("sub-001_id-a").data) <:+:
          duplicate_message (("sub").data) (("sub-001_id-a").data) ex
      ∧ ex <:+: duplicate_message (("sub").data) (("sub-001_id-a").data) ex := by
  have hsome : (find_duplicate (("sub").data) (("sub-001_id-a").data) existing).isSome := by
    rw [find_duplicate, List.find?_isSome]
    exact ⟨("sub-001").data, h, by decide⟩
  obtain ⟨ex, hfd⟩ := Option.isSome_iff_exists.mp hsome
  refine ⟨ex, List.mem_of_find?_eq_some hfd, List.find?_some hfd, ?_,
    duplicate_message_has_cand _ _ _, duplicate_message_has_existing _ _ _⟩
  simp only [validate_names, find_duplicate] at hfd ⊢
  rw [hfd]

/-- Witness for C8: with existing NameSet exactly sub-001 the raised
error carries the recorded duplicate message. -/
theorem C8_witness :
    validate_names [("sub-001_id-a").data] [("sub-001").data] (("sub").data)
        ValidationMode.err
      = PyResult.raised ⟨ExcKind.neuroBlueprintError,
          duplicate_message (("sub").data) (("sub-001_id-a").data)
            (("sub-001").data)⟩ := by
  obtain ⟨ex, hmem, _, heq, _, _⟩ :=
    C8_duplicate_entity_error [("sub-001").data] (by decide)
  have hex : ex = ("sub-001").data := List.mem_singleton.mp hmem
  rw [hex] at heq
  exact heq
